import Mathlib

/-!
Verification of the flamslam-js numeric-buffer and image-processing core.

The development shallowly embeds the TypeScript sources:
  core/data.ts     (Data, the 8-byte aligned buffer)
  constants.ts     (type and channel codes)
  core/matrix.ts   (Matrix)
  core/pyramid.ts  (Pyramid.build, modelled as its call trace)
  memory/pool.ts   (PoolNode)
  memory/cache.ts  (Cache, the free-list pool)
  image/processing.ts (ImageProcessing.grayscale)

Modelling conventions:
  * Sizes and indices are Nat.  JavaScript bitwise operators coerce through
    int32; every size handled by this library sits far below 2^31, where the
    coercions are the identity, and the definitions below are written for
    that range (comments mark each spot).
  * Object identity (ArrayBuffer instances, pool nodes) is modelled with an
    explicit numeric id drawn from a fresh-id counter that the operations
    thread through.  A newly constructed buffer receives the supplied
    counter value as its id.
  * JavaScript float64 arithmetic is modelled exactly with dyadic numbers
    (an integer significand times a power of two) and round-to-nearest,
    ties-to-even at 53 significant bits; the values arising in the
    grayscale kernel stay in the normal range, so neither overflow nor
    subnormals need to be represented.
  * Fallible code (a throw, or a typed-array constructor that can raise a
    RangeError) is modelled with Except String.
-/

namespace Flam

/-! ### core/data.ts -/

/-- A raw JavaScript ArrayBuffer: a byte capacity plus an allocation
identity used to model reference equality. -/
structure ArrayBuffer where
  byteLength : Nat
  id : Nat
deriving DecidableEq, Repr

/-- The alignment computation of the Data constructor,
`(sizeInBytes + 7) & -8`: clear the three low bits of `n + 7`.  For the
sizes this library handles (below 2^31) the int32 coercion of the
JavaScript bitwise ops is the identity, so over Nat this is
`(n + 7) / 8 * 8`. -/
def align8 (n : Nat) : Nat := (n + 7) / 8 * 8

/-- The Data object of core/data.ts: the recorded `size` plus the wrapped
ArrayBuffer.  The four typed views (u8, i32, f32, f64) are functions of
`buffer` and are derived below rather than stored. -/
structure Data where
  size : Nat
  buffer : ArrayBuffer
deriving DecidableEq, Repr

/-- Construction with no `existing` argument: `size = (n+7) & -8` and a
fresh ArrayBuffer of exactly `size` bytes (`new ArrayBuffer(this.size)`);
`fresh` is the identity given to the new allocation.  This path cannot
fail: the allocated capacity is a multiple of 8, so all four typed views
are constructible. -/
def Data.new (sizeInBytes : Nat) (fresh : Nat) : Data :=
  { size := align8 sizeInBytes
    buffer := { byteLength := align8 sizeInBytes, id := fresh } }

/-- The full constructor `new Data(sizeInBytes, existing?)`.
`this.size = (sizeInBytes + 7) & -8` is computed without consulting the
wrapped buffer, then `this.buffer = existing ?? new ArrayBuffer(this.size)`.
The view constructors then run in source order u8, i32, f32, f64; an
Int32Array over a buffer whose byteLength is not a multiple of 4 throws a
RangeError, as does a Float64Array over a byteLength not a multiple of 8. -/
def Data.make (sizeInBytes : Nat) (existing : Option ArrayBuffer) (fresh : Nat) :
    Except String Data :=
  let size := align8 sizeInBytes
  let buffer := existing.getD { byteLength := size, id := fresh }
  if buffer.byteLength % 4 ≠ 0 then
    .error "RangeError: byte length of Int32Array should be a multiple of 4"
  else if buffer.byteLength % 8 ≠ 0 then
    .error "RangeError: byte length of Float64Array should be a multiple of 8"
  else
    .ok { size := size, buffer := buffer }

/-- Which of the four same-region views of a Data a Matrix exposes. -/
inductive ViewKind
  | u8
  | i32
  | f32
  | f64
deriving DecidableEq, Repr

/-- A typed-array view object: its element kind plus the ArrayBuffer it
addresses.  Two views are the same object exactly when both fields
agree. -/
structure TypedView where
  kind : ViewKind
  buffer : ArrayBuffer
deriving DecidableEq, Repr

/-- The `u8` view of a Data. -/
def Data.u8 (d : Data) : TypedView := { kind := .u8, buffer := d.buffer }

/-- The `i32` view of a Data. -/
def Data.i32 (d : Data) : TypedView := { kind := .i32, buffer := d.buffer }

/-- The `f32` view of a Data. -/
def Data.f32 (d : Data) : TypedView := { kind := .f32, buffer := d.buffer }

/-- The `f64` view of a Data. -/
def Data.f64 (d : Data) : TypedView := { kind := .f64, buffer := d.buffer }

/-! ### constants.ts -/

/-- DataType.U8 of constants.ts. -/
def DataType.U8 : Nat := 0x0100

/-- DataType.S32 of constants.ts. -/
def DataType.S32 : Nat := 0x0200

/-- DataType.F32 of constants.ts. -/
def DataType.F32 : Nat := 0x0400

/-- DataType.S64 of constants.ts. -/
def DataType.S64 : Nat := 0x0800

/-- DataType.F64 of constants.ts. -/
def DataType.F64 : Nat := 0x1000

/-- Channels.C1 of constants.ts. -/
def Channels.C1 : Nat := 0x01

/-- `getDataType(value)`: the raw masked bits `value & 0xff00`, with no
validation against the recognized DataType set. -/
def getDataType (value : Nat) : Nat := value &&& 0xff00

/-- `getChannel(value)`: the raw masked bits `value & 0xff`, with no
validation. -/
def getChannel (value : Nat) : Nat := value &&& 0xff

/-- The DATA_TYPE_SIZE lookup table.  A TypeScript object lookup at an
unlisted key yields `undefined`; that absent case is `none` here. -/
def getDataTypeSize (t : Nat) : Option Nat :=
  if t = DataType.U8 then some 1
  else if t = DataType.S32 then some 4
  else if t = DataType.F32 then some 4
  else if t = DataType.S64 then some 8
  else if t = DataType.F64 then some 8
  else none

/-- The element size actually used in Matrix arithmetic.  For a
recognized type it is the table entry.  For an unrecognized type the
JavaScript source multiplies by `undefined`, producing NaN; every use
site (`bytes = elements * size` feeding `(bytes + 7) & -8`, and the
comparison `newSize > this.buffer.size`) then behaves exactly as if the
size were 0 (`(NaN + 7) & -8 = 0`, and a comparison with NaN is false),
so `0` reproduces the source behaviour at those sites. -/
def elemSize (t : Nat) : Nat := (getDataTypeSize t).getD 0

/-! ### core/matrix.ts -/

/-- The Matrix object: logical dimensions, the decoded type and channel
codes, the backing Data, and the active typed view (`none` models the
`undefined` that `selectTypedView` returns for an unrecognized type). -/
structure Matrix where
  cols : Nat
  rows : Nat
  type : Nat
  channels : Nat
  buffer : Data
  data : Option TypedView
deriving DecidableEq, Repr

/-- `selectTypedView`: the switch over `this.type`.  U8, S32 and F32 map
to their native views; both S64 and F64 map to the f64 view.  An
unrecognized type matches no case and the function returns `undefined`,
modelled as `none`. -/
def Matrix.selectTypedView (t : Nat) (b : Data) : Option TypedView :=
  if t = DataType.U8 then some b.u8
  else if t = DataType.S32 then some b.i32
  else if t = DataType.F32 then some b.f32
  else if t = DataType.S64 ∨ t = DataType.F64 then some b.f64
  else none

/-- `Matrix.allocate()`: recompute `elements = cols*rows*channels`,
`bytes = elements * elementSize`, construct a fresh Data of that many
bytes unconditionally, and rebind the active view. -/
def Matrix.allocate (m : Matrix) (fresh : Nat) : Matrix :=
  let elements := m.cols * m.rows * m.channels
  let bytes := elements * elemSize m.type
  let buf := Data.new bytes fresh
  { m with buffer := buf, data := Matrix.selectTypedView m.type buf }

/-- A placeholder for the definite-assignment fields of the Matrix
constructor (`buffer!`/`data!` in the source); it is overwritten before
the constructor returns on every path. -/
def uninitData : Data := { size := 0, buffer := { byteLength := 0, id := 0 } }

/-- The Matrix constructor.  `cols | 0` and `rows | 0` are the identity
for the natural sizes modelled here.  The combined code is decoded by
masking; if an existing Data is supplied it is bound directly with no
size check and only the view is selected, otherwise `allocate()` runs. -/
def Matrix.make (cols rows type : Nat) (existingBuffer : Option Data) (fresh : Nat) :
    Matrix :=
  let t := getDataType type
  let ch := getChannel type
  match existingBuffer with
  | some b =>
      { cols := cols, rows := rows, type := t, channels := ch
        buffer := b, data := Matrix.selectTypedView t b }
  | none =>
      Matrix.allocate
        { cols := cols, rows := rows, type := t, channels := ch
          buffer := uninitData, data := none } fresh

/-- `Matrix.resize(cols, rows, ch)`: update the logical dimensions, then
reallocate via `allocate()` only when the new required byte count exceeds
`this.buffer.size`.  (In the source `ch` defaults to `this.channels`;
callers here pass it explicitly.) -/
def Matrix.resize (m : Matrix) (cols rows ch : Nat) (fresh : Nat) : Matrix :=
  let newSize := cols * rows * ch * elemSize m.type
  let m' := { m with cols := cols, rows := rows, channels := ch }
  if newSize > m.buffer.size then m'.allocate fresh else m'

/-- The Matrix size invariant claimed by the spec:
`buffer.size ≥ cols * rows * channels * elementSizeBytes`. -/
def Matrix.sizeInvariant (m : Matrix) : Prop :=
  m.cols * m.rows * m.channels * elemSize m.type ≤ m.buffer.size

instance (m : Matrix) : Decidable m.sizeInvariant := by
  unfold Matrix.sizeInvariant; infer_instance

/-! Shared facts about the alignment computation. -/

theorem align8_mod (n : Nat) : align8 n % 8 = 0 := by
  unfold align8; omega

theorem le_align8 (n : Nat) : n ≤ align8 n := by
  unfold align8; omega

theorem align8_sub (n : Nat) : align8 n = (n + 7) - (n + 7) % 8 := by
  unfold align8; omega

/-! ### memory/pool.ts and memory/cache.ts

Pool nodes are mutable heap objects linked through `next` pointers, and
`put_buffer` writes through `this.tail` even when that node has been
detached from the chain, so the pool is modelled with an explicit node
store: nodes are addressed by numeric ids, a PoolState maps ids to node
contents, and `head`/`tail` hold an id or `null`.  A single fresh-id
counter supplies identities for new nodes and new buffers. -/

/-- The contents of one PoolNode: the forward link, the wrapped Data and
the recorded `size` (set from `data.size` by the constructor and by
`resize`). -/
structure PNode where
  next : Option Nat
  data : Data
  size : Nat
deriving DecidableEq, Repr

/-- `new PoolNode(sizeInBytes)`: wrap a fresh Data and record its size;
`id` is the identity of both the node's buffer and (by convention here)
the node itself. -/
def mkPNode (sizeInBytes : Nat) (id : Nat) : PNode :=
  { next := none
    data := Data.new sizeInBytes id
    size := (Data.new sizeInBytes id).size }

/-- `PoolNode.resize(sizeInBytes)`: rebind `data` to a freshly
constructed Data (the old buffer is discarded, not grown) and re-record
its size. -/
def PNode.resize (n : PNode) (sizeInBytes : Nat) (fresh : Nat) : PNode :=
  { n with
    data := Data.new sizeInBytes fresh
    size := (Data.new sizeInBytes fresh).size }

/-- The whole pool: the node store, the Cache's `head` and `tail`
pointers, and the fresh-id counter. -/
structure PoolState where
  nodes : Nat → PNode
  head : Option Nat
  tail : Option Nat
  fresh : Nat

/-- Point update of the node store. -/
def updNode (f : Nat → PNode) (k : Nat) (v : PNode) : Nat → PNode :=
  fun x => if x = k then v else f x

/-- A node-store entry standing for an id that has never been
allocated. -/
def blankPNode : PNode :=
  { next := none, data := uninitData, size := 0 }

/-- The state of a `new Cache()` before `allocate` is called: both
pointers null, nothing allocated. -/
def emptyPool : PoolState :=
  { nodes := fun _ => blankPNode, head := none, tail := none, fresh := 0 }

/-- One iteration of the allocation loop:
`next = new PoolNode(sizeInBytes); this.tail!.next = next; this.tail = next`.
Inside `Cache.allocate` the tail is never null; the `none` arm is
unreachable there and returns the state unchanged. -/
def poolAppend (st : PoolState) (sizeInBytes : Nat) : PoolState :=
  match st.tail with
  | none => st
  | some t =>
      let id := st.fresh
      let withNew := updNode st.nodes id (mkPNode sizeInBytes id)
      { st with
        nodes := updNode withNew t { withNew t with next := some id }
        tail := some id
        fresh := id + 1 }

/-- The `for (let i = 0; i < capacity; i++)` loop of `Cache.allocate`,
running `capacity` iterations of `poolAppend`. -/
def allocLoop : Nat → PoolState → Nat → PoolState
  | 0, st, _ => st
  | k + 1, st, sizeInBytes => allocLoop k (poolAppend st sizeInBytes) sizeInBytes

/-- `Cache.allocate(capacity, sizeInBytes)`: construct one node, set
`head = tail =` that node, then append `capacity` more (capacity + 1
nodes in total). -/
def Cache.allocate (st : PoolState) (capacity sizeInBytes : Nat) : PoolState :=
  let id := st.fresh
  let st1 : PoolState :=
    { st with
      nodes := updNode st.nodes id (mkPNode sizeInBytes id)
      head := some id
      tail := some id
      fresh := id + 1 }
  allocLoop capacity st1 sizeInBytes

/-- The exhaustion message thrown by `get_buffer`. -/
def cacheExhaustedMsg : String := "Cache exhausted - consider increasing capacity"

/-- `Cache.get_buffer(sizeInBytes)`: throw when `head` is null (nothing
has been mutated at that point); otherwise detach the head node, advance
`head` to its `next`, resize the node's buffer when the request exceeds
its recorded size, and return the node (its `next` link is left as it
was).  The result carries the detached node's id. -/
def Cache.get_buffer (st : PoolState) (sizeInBytes : Nat) :
    Except String (PoolState × Nat) :=
  match st.head with
  | none => .error cacheExhaustedMsg
  | some h =>
      let node := st.nodes h
      let st1 := { st with head := node.next }
      if sizeInBytes > node.size then
        .ok ({ st1 with
                nodes := updNode st1.nodes h (node.resize sizeInBytes st1.fresh)
                fresh := st1.fresh + 1 }, h)
      else
        .ok (st1, h)

/-- `Cache.put_buffer(node)`:
`this.tail!.next = node; this.tail = node; node.next = null`, in that
order.  `head` is not touched.  When `tail` is null the non-null
assertion fails at runtime (a TypeError), modelled as an error. -/
def Cache.put_buffer (st : PoolState) (n : Nat) : Except String PoolState :=
  match st.tail with
  | none => .error "TypeError: tail is null"
  | some t =>
      let nodes1 := updNode st.nodes t { st.nodes t with next := some n }
      let st1 := { st with nodes := nodes1, tail := some n }
      .ok { st1 with nodes := updNode st1.nodes n { st1.nodes n with next := none } }

/-! ### core/pyramid.ts

`Pyramid.build` only sequences calls to `copyTo` and to the injected
`pyrdown` strategy, so it is modelled by the trace of those calls.
Matrices are named by their role: the `input` argument or a pyramid
layer. -/

/-- A matrix as named inside `Pyramid.build`. -/
inductive MatRef
  | input
  | layer (i : Nat)
deriving DecidableEq, Repr

/-- One observable call made by `Pyramid.build`. -/
inductive BuildEvent
  | copy (src dst : MatRef)
  | down (src dst : MatRef)
deriving DecidableEq, Repr

/-- The `for (let i = 2; i < this.levels; i++)` loop of `build`: each
iteration re-points `a` at the previous destination `b`, points `b` at
`layers[i]`, and calls `pyrdown(a, b)`.  The loop runs
`levels - 2` times (zero when `levels < 2`), which is the count this
structural recursion consumes; `b` is the current source. -/
def buildLoopTrace (b : MatRef) (i : Nat) : Nat → List BuildEvent
  | 0 => []
  | count + 1 =>
      BuildEvent.down b (MatRef.layer i) :: buildLoopTrace (MatRef.layer i) (i + 1) count

/-- The full call trace of `Pyramid.build(input, pyrdown, skipFirst)`:
`input.copyTo(this.layers[0])` exactly when `skipFirst` is false, then
`pyrdown(input, this.layers[1])`, then the loop from `i = 2`. -/
def Pyramid.buildTrace (levels : Nat) (skipFirst : Bool) : List BuildEvent :=
  (if skipFirst then [] else [BuildEvent.copy MatRef.input (MatRef.layer 0)]) ++
    BuildEvent.down MatRef.input (MatRef.layer 1) ::
      buildLoopTrace (MatRef.layer 1) 2 (levels - 2)

/-! ### Exact model of JavaScript float64 arithmetic

Every value the grayscale kernel manipulates is a dyadic rational
`m * 2^e`.  IEEE-754 binary64 arithmetic computes the exact result of
each operation and rounds it to 53 significant bits, round-to-nearest
with ties to even; the magnitudes here (between about 2^-60 and 2^9)
are far inside the normal range, so overflow and subnormal rounding
never occur and are not represented. -/

/-- A dyadic rational `m * 2^e`. -/
structure Dyadic where
  m : ℤ
  e : ℤ
deriving DecidableEq, Repr

/-- Fuel-driven floor of log2; `floorLog2 n` is exact for `0 < n < 2^128`,
which covers every significand arising here (at most about 2^115). -/
def log2Aux : Nat → Nat → Nat
  | 0, _ => 0
  | fuel + 1, n => if 2 ≤ n then log2Aux fuel (n / 2) + 1 else 0

/-- Floor of log2 for the range used in this file. -/
def floorLog2 (n : Nat) : Nat := log2Aux 128 n

/-- Round `a` at `shift` low bits, round-to-nearest ties-to-even. -/
def roundShift (a shift : Nat) : Nat :=
  if shift = 0 then a
  else
    let q := a / 2 ^ shift
    let r := a % 2 ^ shift
    let half := 2 ^ (shift - 1)
    if r < half then q
    else if half < r then q + 1
    else if q % 2 = 0 then q else q + 1

/-- Round the dyadic `m * 2^e` to 53 significant bits (the binary64
significand), round-to-nearest ties-to-even. -/
def roundDyadic (m : ℤ) (e : ℤ) : Dyadic :=
  if m = 0 then { m := 0, e := 0 }
  else
    let a := m.natAbs
    let bits := floorLog2 a + 1
    if bits ≤ 53 then { m := m, e := e }
    else
      let shift := bits - 53
      let q := roundShift a shift
      { m := if m < 0 then -(q : ℤ) else (q : ℤ), e := e + shift }

/-- Float64 multiplication: round the exact product. -/
def Dyadic.mul (x y : Dyadic) : Dyadic := roundDyadic (x.m * y.m) (x.e + y.e)

/-- Float64 addition: align the exponents, add exactly, round. -/
def Dyadic.add (x y : Dyadic) : Dyadic :=
  let e := min x.e y.e
  roundDyadic (x.m * 2 ^ (x.e - e).toNat + y.m * 2 ^ (y.e - e).toNat) e

/-- Integer division rounded to nearest, ties to even (`b` positive). -/
def divHalfEven (a b : Nat) : Nat :=
  let q := a / b
  let r := a % b
  if 2 * r < b then q
  else if b < 2 * r then q + 1
  else if q % 2 = 0 then q else q + 1

/-- For `1 ≤ num < den`: the least `k` with `den ≤ num * 2^k`, searched
with enough fuel for ratios below 2^128. -/
def minShiftAux (num den : Nat) : Nat → Nat → Nat
  | 0, k => k
  | fuel + 1, k => if den ≤ num * 2 ^ k then k else minShiftAux num den fuel (k + 1)

/-- Least `k` with `den ≤ num * 2^k`, for `1 ≤ num < den`. -/
def minShift (num den : Nat) : Nat := minShiftAux num den 128 0

/-- Floor of log2 of the positive rational `num / den`. -/
def ratExpZ (num den : Nat) : ℤ :=
  if den ≤ num then (floorLog2 (num / den) : ℤ)
  else -(minShift num den : ℤ)

/-- The binary64 value of the decimal literal `num / den` (how the
JavaScript source literals 0.299, 0.587, 0.114 are read): round the
rational to the nearest double, ties to even.  Defined for positive
values below 2^52, which covers the literals modelled here. -/
def ratToDouble (num den : Nat) : Dyadic :=
  if num = 0 then { m := 0, e := 0 }
  else
    let e := ratExpZ num den
    let shift := (52 - e).toNat
    { m := (divHalfEven (num * 2 ^ shift) den : ℤ), e := e - 52 }

/-- A small natural (a source pixel byte) as an exact double. -/
def dyadicOfNat (n : Nat) : Dyadic := { m := (n : ℤ), e := 0 }

/-- Truncation toward zero of a dyadic value (the integer part selected
by the `| 0` coercion). -/
def Dyadic.trunc (x : Dyadic) : ℤ :=
  if 0 ≤ x.e then x.m * 2 ^ x.e.toNat
  else
    let q : Nat := x.m.natAbs / 2 ^ (-x.e).toNat
    if 0 ≤ x.m then (q : ℤ) else -(q : ℤ)

/-- The ECMAScript ToInt32 conversion applied to an integer: wrap into
`[-2^31, 2^31)`. -/
def jsToInt32 (t : ℤ) : ℤ := (t + 2 ^ 31).emod (2 ^ 32) - 2 ^ 31

/-- Storing an integer into a Uint8Array element: ToUint8 keeps the
value modulo 256, in `[0, 256)`. -/
def storeU8 (g : ℤ) : Nat := (g.emod 256).toNat

/-! ### image/processing.ts -/

/-- ColorConversion.RGBA2GRAY. -/
def ColorConversion.RGBA2GRAY : Nat := 0

/-- ColorConversion.RGB2GRAY. -/
def ColorConversion.RGB2GRAY : Nat := 1

/-- ColorConversion.BGRA2GRAY. -/
def ColorConversion.BGRA2GRAY : Nat := 2

/-- ColorConversion.BGR2GRAY. -/
def ColorConversion.BGR2GRAY : Nat := 3

/-- The per-format parameters `grayscale` derives from its `code`
argument: the source stride `cn` and the red/green/blue byte offsets. -/
structure GrayParams where
  cn : Nat
  idxR : Nat
  idxG : Nat
  idxB : Nat
deriving DecidableEq, Repr

/-- The decode prologue of `grayscale`: `cn` starts at 4 and the offsets
at (0,1,2); BGRA/BGR swap the red and blue offsets; RGB/BGR set `cn` to
3.  Any other code value changes nothing, leaving the RGBA parameters. -/
def decodeGray (code : Nat) : GrayParams :=
  let swapRB := code = ColorConversion.BGRA2GRAY ∨ code = ColorConversion.BGR2GRAY
  let threeCh := code = ColorConversion.RGB2GRAY ∨ code = ColorConversion.BGR2GRAY
  { cn := if threeCh then 3 else 4
    idxR := if swapRB then 2 else 0
    idxG := 1
    idxB := if swapRB then 0 else 2 }

/-- The double literal 0.299 (WR in the source). -/
def WR : Dyadic := ratToDouble 299 1000

/-- The double literal 0.587 (WG in the source). -/
def WG : Dyadic := ratToDouble 587 1000

/-- The double literal 0.114 (WB in the source). -/
def WB : Dyadic := ratToDouble 114 1000

/-- The luminance expression
`WR * src[i + idxR] + WG * src[i + idxG] + WB * src[i + idxB]`, with
JavaScript left-to-right association and one float64 rounding per
operation. -/
def lum3 (src : Nat → Nat) (p : GrayParams) (i : Nat) : Dyadic :=
  Dyadic.add
    (Dyadic.add (Dyadic.mul WR (dyadicOfNat (src (i + p.idxR))))
      (Dyadic.mul WG (dyadicOfNat (src (i + p.idxG)))))
    (Dyadic.mul WB (dyadicOfNat (src (i + p.idxB))))

/-- The byte the kernel stores for the pixel starting at source offset
`i`: the luminance, truncated by `| 0`, stored through the u8 view. -/
def pix (src : Nat → Nat) (p : GrayParams) (i : Nat) : Nat :=
  storeU8 (jsToInt32 (lum3 src p i).trunc)

/-- Point update of the destination byte store `dst_u8[j] = v`. -/
def writeByte (d : Nat → Nat) (j v : Nat) : Nat → Nat :=
  fun k => if k = j then v else d k

/-- The unrolled loop `while (j <= limit)` with
`limit = rowStartDst + (w - 4)` (evaluated in exact JavaScript number
arithmetic, hence the ℤ comparison): four pixels per iteration, source
advancing by `stride4 = cn * 4`.  Returns the byte store and the final
`i` and `j`. -/
def grayMain (src : Nat → Nat) (p : GrayParams) (w rsd : Nat) (i j : Nat)
    (d : Nat → Nat) : (Nat → Nat) × Nat × Nat :=
  if h : (j : ℤ) ≤ (rsd : ℤ) + (w : ℤ) - 4 then
    let d4 :=
      writeByte
        (writeByte
          (writeByte (writeByte d j (pix src p i)) (j + 1) (pix src p (i + p.cn)))
          (j + 2) (pix src p (i + p.cn * 2)))
        (j + 3) (pix src p (i + p.cn * 3))
    grayMain src p w rsd (i + p.cn * 4) (j + 4) d4
  else (d, i, j)
termination_by rsd + w - j
decreasing_by omega

/-- The remainder loop `while (j < rowStartDst + w)`: one pixel at a
time. -/
def grayRem (src : Nat → Nat) (p : GrayParams) (w rsd : Nat) (i j : Nat)
    (d : Nat → Nat) : Nat → Nat :=
  if j < rsd + w then
    grayRem src p w rsd (i + p.cn) (j + 1) (writeByte d j (pix src p i))
  else d
termination_by rsd + w - j
decreasing_by omega

/-- The unrolled loop followed by the remainder loop, from a given
source index, destination index and byte store. -/
def grayMainThenRem (src : Nat → Nat) (p : GrayParams) (w rsd : Nat) (i j : Nat)
    (d : Nat → Nat) : Nat → Nat :=
  grayRem src p w rsd
    (grayMain src p w rsd i j d).2.1
    (grayMain src p w rsd i j d).2.2
    (grayMain src p w rsd i j d).1

/-- One iteration of the row loop: `rowStartSrc = y * w * cn`,
`rowStartDst = y * w`, then the two inner loops. -/
def grayRow (src : Nat → Nat) (p : GrayParams) (w y : Nat) (d : Nat → Nat) :
    Nat → Nat :=
  grayMainThenRem src p w (y * w) (y * w * p.cn) (y * w) d

/-- The row loop `for (let y = 0; y < h; y++)`, processing rows 0 up to
`h - 1` in order. -/
def grayRowsAux (src : Nat → Nat) (p : GrayParams) (w : Nat) :
    Nat → (Nat → Nat) → Nat → Nat
  | 0, d => d
  | h + 1, d => grayRow src p w h (grayRowsAux src p w h d)

/-- The byte output of `ImageProcessing.grayscale(src, w, h, dst, code)`.
Before the loops the source resizes `dst` to `(w, h, Channels.C1)` —
that step is `Matrix.resize` above; the loops then write the destination
bytes left to right, top to bottom, which is what this function
models (`d` is the destination byte store the loops start from). -/
def ImageProcessing.grayscale (src : Nat → Nat) (w h code : Nat)
    (d : Nat → Nat) : Nat → Nat :=
  grayRowsAux src (decodeGray code) w h d

/-- Reference semantics, following the words of the spec: process one
pixel at a time, left to right within a row.  `count` pixels starting at
source offset `i` and destination index `j`. -/
def refPixels (src : Nat → Nat) (p : GrayParams) :
    Nat → Nat → Nat → (Nat → Nat) → Nat → Nat
  | _, _, 0, d => d
  | i, j, count + 1, d =>
      refPixels src p (i + p.cn) (j + 1) count (writeByte d j (pix src p i))

/-- Reference semantics, rows top to bottom. -/
def refRows (src : Nat → Nat) (p : GrayParams) (w : Nat) :
    Nat → (Nat → Nat) → Nat → Nat
  | 0, d => d
  | h + 1, d => refPixels src p (h * w * p.cn) (h * w) w (refRows src p w h d)

/-- The spec-side reference conversion: for every pixel in reading
order, one luminance computation and one store. -/
def refGrayscale (src : Nat → Nat) (w h code : Nat) (d : Nat → Nat) :
    Nat → Nat :=
  refRows src (decodeGray code) w h d

/-! ### The unrolled loops compute the reference semantics -/

lemma grayRem_eq_refPixels (src : Nat → Nat) (p : GrayParams) (w rsd : Nat) :
    ∀ (N i j : Nat) (d : Nat → Nat), rsd + w - j = N →
      grayRem src p w rsd i j d = refPixels src p i j N d := by
  intro N
  induction N with
  | zero =>
      intro i j d hN
      rw [grayRem]
      have hj : ¬ j < rsd + w := by omega
      simp only [hj, if_false, refPixels]
  | succ n ih =>
      intro i j d hN
      rw [grayRem]
      have hj : j < rsd + w := by omega
      simp only [hj, if_true, refPixels]
      exact ih (i + p.cn) (j + 1) (writeByte d j (pix src p i)) (by omega)

lemma grayMain_step (src : Nat → Nat) (p : GrayParams) (w rsd i j : Nat)
    (d : Nat → Nat) (h : (j : ℤ) ≤ (rsd : ℤ) + (w : ℤ) - 4) :
    grayMain src p w rsd i j d =
      grayMain src p w rsd (i + p.cn * 4) (j + 4)
        (writeByte
          (writeByte
            (writeByte (writeByte d j (pix src p i)) (j + 1) (pix src p (i + p.cn)))
            (j + 2) (pix src p (i + p.cn * 2)))
          (j + 3) (pix src p (i + p.cn * 3))) := by
  conv_lhs => rw [grayMain]
  simp only [h, dite_true]

lemma grayMain_stop (src : Nat → Nat) (p : GrayParams) (w rsd i j : Nat)
    (d : Nat → Nat) (h : ¬ (j : ℤ) ≤ (rsd : ℤ) + (w : ℤ) - 4) :
    grayMain src p w rsd i j d = (d, i, j) := by
  rw [grayMain]
  simp only [h, dite_false]

lemma refPixels_four (src : Nat → Nat) (p : GrayParams) (i j n : Nat)
    (d : Nat → Nat) :
    refPixels src p i j (n + 4) d =
      refPixels src p (i + p.cn * 4) (j + 4) n
        (writeByte
          (writeByte
            (writeByte (writeByte d j (pix src p i)) (j + 1) (pix src p (i + p.cn)))
            (j + 2) (pix src p (i + p.cn * 2)))
          (j + 3) (pix src p (i + p.cn * 3))) := by
  simp only [refPixels]
  have e2 : i + p.cn + p.cn = i + p.cn * 2 := by ring
  have e3 : i + p.cn * 2 + p.cn = i + p.cn * 3 := by ring
  have e4 : i + p.cn * 3 + p.cn = i + p.cn * 4 := by ring
  rw [e2, e3, e4]

lemma grayMainThenRem_eq_refPixels (src : Nat → Nat) (p : GrayParams) (w rsd : Nat) :
    ∀ (N i j : Nat) (d : Nat → Nat), rsd + w - j = N →
      grayMainThenRem src p w rsd i j d = refPixels src p i j N d := by
  intro N
  induction N using Nat.strong_induction_on with
  | _ N ih =>
      intro i j d hN
      by_cases h : (j : ℤ) ≤ (rsd : ℤ) + (w : ℤ) - 4
      · have h4 : j + 4 ≤ rsd + w := by omega
        unfold grayMainThenRem
        rw [grayMain_step src p w rsd i j d h]
        have hih :
            grayMainThenRem src p w rsd (i + p.cn * 4) (j + 4)
              (writeByte
                (writeByte
                  (writeByte (writeByte d j (pix src p i)) (j + 1) (pix src p (i + p.cn)))
                  (j + 2) (pix src p (i + p.cn * 2)))
                (j + 3) (pix src p (i + p.cn * 3))) =
            refPixels src p (i + p.cn * 4) (j + 4) (N - 4)
              (writeByte
                (writeByte
                  (writeByte (writeByte d j (pix src p i)) (j + 1) (pix src p (i + p.cn)))
                  (j + 2) (pix src p (i + p.cn * 2)))
                (j + 3) (pix src p (i + p.cn * 3))) :=
          ih (N - 4) (by omega) _ _ _ (by omega)
        unfold grayMainThenRem at hih
        rw [hih]
        obtain ⟨n', hn'⟩ : ∃ n', N = n' + 4 := ⟨N - 4, by omega⟩
        subst hn'
        rw [refPixels_four]
        simp only [Nat.add_sub_cancel]
      · unfold grayMainThenRem
        rw [grayMain_stop src p w rsd i j d h]
        exact grayRem_eq_refPixels src p w rsd N i j d hN

lemma grayRow_eq_refPixels (src : Nat → Nat) (p : GrayParams) (w y : Nat)
    (d : Nat → Nat) :
    grayRow src p w y d = refPixels src p (y * w * p.cn) (y * w) w d := by
  unfold grayRow
  exact grayMainThenRem_eq_refPixels src p w (y * w) w (y * w * p.cn) (y * w) d (by omega)

lemma grayRowsAux_eq_refRows (src : Nat → Nat) (p : GrayParams) (w : Nat) :
    ∀ (h : Nat) (d : Nat → Nat), grayRowsAux src p w h d = refRows src p w h d := by
  intro h
  induction h with
  | zero => intro d; rfl
  | succ n ih =>
      intro d
      simp only [grayRowsAux, refRows]
      rw [ih]
      exact grayRow_eq_refPixels src p w n (refRows src p w n d)

lemma grayscale_eq_refGrayscale (src : Nat → Nat) (w h code : Nat)
    (d : Nat → Nat) :
    ImageProcessing.grayscale src w h code d = refGrayscale src w h code d :=
  grayRowsAux_eq_refRows src (decodeGray code) w h d

/-! ### Closed form of the build loop -/

lemma buildLoopTrace_closed :
    ∀ (n j : Nat),
      buildLoopTrace (MatRef.layer j) (j + 1) n =
        (List.range n).map
          (fun k => BuildEvent.down (MatRef.layer (j + k)) (MatRef.layer (j + 1 + k))) := by
  intro n
  induction n with
  | zero => intro j; rfl
  | succ n ih =>
      intro j
      rw [List.range_succ_eq_map, List.map_cons, List.map_map]
      simp only [buildLoopTrace]
      have hf :
          (fun k => BuildEvent.down (MatRef.layer (j + k)) (MatRef.layer (j + 1 + k))) ∘
              Nat.succ =
            fun k => BuildEvent.down (MatRef.layer (j + 1 + k)) (MatRef.layer (j + 1 + 1 + k)) := by
        funext k
        simp only [Function.comp, Nat.succ_eq_add_one]
        have a1 : j + (k + 1) = j + 1 + k := by omega
        have a2 : j + 1 + (k + 1) = j + 1 + 1 + k := by omega
        rw [a1, a2]
      rw [hf, ih (j + 1)]
      simp

/-! ### The claims -/

/-- C9: for every requested byte size n (and any allocation identity),
the constructed buffer records size equal to clearing the low three bits
of n + 7 — in the source, the int32 computation (n + 7) & -8, equal over
this range to (n + 7) minus its remainder modulo 8 — and that value is a
multiple of 8 and at least n; the allocated capacity equals the recorded
size.  The Data object offers no mutating operation: everywhere the
source resizes (PoolNode.resize, Matrix.allocate), it constructs a new
Data and rebinds, so no subsequent operation changes the recorded
size. -/
theorem c9_aligned_size (n fresh : Nat) :
    (Data.new n fresh).size = (n + 7) - (n + 7) % 8 ∧
    (Data.new n fresh).size % 8 = 0 ∧
    n ≤ (Data.new n fresh).size ∧
    (Data.new n fresh).buffer.byteLength = (Data.new n fresh).size := by
  refine ⟨?_, ?_, ?_, rfl⟩
  · exact align8_sub n
  · exact align8_mod n
  · exact le_align8 n

/-- C10: wrapping an externally supplied ArrayBuffer records the 8-byte-
aligned requested size without consulting the wrapped buffer's
byteLength (the recorded size is align8 n whatever the capacity is, so
the two can disagree in either direction), and construction succeeds
exactly when the wrapped byteLength is a multiple of 8 — otherwise one
of the 32-bit or 64-bit typed-view constructors raises a RangeError. -/
theorem c10_wrap_unchecked (n : Nat) (buf : ArrayBuffer) (fresh : Nat) :
    ((∃ d, Data.make n (some buf) fresh = .ok d) ↔ buf.byteLength % 8 = 0) ∧
    (buf.byteLength % 8 = 0 →
      Data.make n (some buf) fresh = .ok { size := align8 n, buffer := buf }) := by
  by_cases h8 : buf.byteLength % 8 = 0
  · have h4 : buf.byteLength % 4 = 0 := by omega
    constructor
    · simp [Data.make, h4, h8]
    · intro _
      simp [Data.make, h4, h8]
  · refine ⟨?_, fun h => absurd h h8⟩
    by_cases h4 : buf.byteLength % 4 = 0
    · simp [Data.make, h4, h8]
    · simp [Data.make, h4, h8]

/-- C10 witness: wrapping a 16-byte buffer with a requested size of 4
succeeds and records size 8 (disagreeing with the 16-byte capacity). -/
theorem c10_wrap_unchecked_witness :
    Data.make 4 (some { byteLength := 16, id := 0 }) 0 =
      .ok { size := 8, buffer := { byteLength := 16, id := 0 } } :=
  (c10_wrap_unchecked 4 { byteLength := 16, id := 0 } 0).2 (by decide)

/-- C8: for a Pyramid with at least 2 levels, the call sequence of build
is: copyTo of the input into layer 0 exactly when skipFirst is false,
then pyrdown from the input into layer 1, then pyrdown from layer i - 1
into layer i for i = 2 up to levels - 1, in that order and nothing
else. -/
theorem c8_build_call_sequence (levels : Nat) (skipFirst : Bool)
    (hl : 2 ≤ levels) :
    Pyramid.buildTrace levels skipFirst =
      (if skipFirst then [] else [BuildEvent.copy MatRef.input (MatRef.layer 0)]) ++
        BuildEvent.down MatRef.input (MatRef.layer 1) ::
          (List.range (levels - 2)).map
            (fun k => BuildEvent.down (MatRef.layer (k + 1)) (MatRef.layer (k + 2))) := by
  unfold Pyramid.buildTrace
  rw [show (2 : Nat) = 1 + 1 by rfl, buildLoopTrace_closed (levels - (1 + 1)) 1]
  have hf :
      (fun k => BuildEvent.down (MatRef.layer (1 + k)) (MatRef.layer (1 + 1 + k))) =
        fun k => BuildEvent.down (MatRef.layer (k + 1)) (MatRef.layer (k + 2)) := by
    funext k
    have a1 : 1 + k = k + 1 := by omega
    have a2 : 1 + 1 + k = k + 2 := by omega
    rw [a1, a2]
  rw [hf]

/-- C8 witness: a three-level pyramid built with skipFirst false copies
the input to layer 0, downsamples the input into layer 1, then layer 1
into layer 2. -/
theorem c8_build_call_sequence_witness :
    Pyramid.buildTrace 3 false =
      [BuildEvent.copy MatRef.input (MatRef.layer 0),
       BuildEvent.down MatRef.input (MatRef.layer 1),
       BuildEvent.down (MatRef.layer 1) (MatRef.layer 2)] := by
  rw [c8_build_call_sequence 3 false (by decide)]
  rfl

/-- C1: resize with a required byte count at most the recorded buffer
size only updates the logical dimensions, leaving the buffer and the
active typed view untouched; resize with a larger requirement rebinds
the buffer to a fresh allocation whose capacity is at least the
requested bytes (so, when the supplied identity is genuinely fresh, a
different buffer). -/
theorem c1_resize_reallocation_policy (m : Matrix) (c r ch fresh : Nat) :
    (c * r * ch * elemSize m.type ≤ m.buffer.size →
      (m.resize c r ch fresh).buffer = m.buffer ∧
      (m.resize c r ch fresh).data = m.data ∧
      (m.resize c r ch fresh).cols = c ∧
      (m.resize c r ch fresh).rows = r ∧
      (m.resize c r ch fresh).channels = ch) ∧
    (m.buffer.size < c * r * ch * elemSize m.type →
      c * r * ch * elemSize m.type ≤ (m.resize c r ch fresh).buffer.buffer.byteLength ∧
      (m.resize c r ch fresh).buffer.buffer.id = fresh ∧
      (fresh ≠ m.buffer.buffer.id → (m.resize c r ch fresh).buffer ≠ m.buffer)) := by
  constructor
  · intro hle
    have hnot : ¬ c * r * ch * elemSize m.type > m.buffer.size := by omega
    have hres : m.resize c r ch fresh = { m with cols := c, rows := r, channels := ch } := by
      simp only [Matrix.resize, hnot, if_false]
    rw [hres]
    exact ⟨rfl, rfl, rfl, rfl, rfl⟩
  · intro hgt
    have hc : c * r * ch * elemSize m.type > m.buffer.size := hgt
    have hres : m.resize c r ch fresh =
        Matrix.allocate { m with cols := c, rows := r, channels := ch } fresh := by
      simp only [Matrix.resize, hc, if_true]
    rw [hres]
    refine ⟨le_align8 _, rfl, ?_⟩
    intro hfresh heq
    exact hfresh (congrArg (fun d => d.buffer.id) heq)

/-- A concrete U8C1 4 by 4 matrix used by the witnesses below (type code
0x0101 decodes to DataType.U8 with one channel; its buffer holds 16
bytes). -/
def sampleU8Matrix : Matrix := Matrix.make 4 4 0x0101 none 0

/-- C1 witness: shrinking the 16-byte sample matrix to 2 by 2 keeps the
buffer and view; growing it to 10 by 10 allocates identity 5 with at
least 100 bytes. -/
theorem c1_resize_reallocation_policy_witness :
    ((sampleU8Matrix.resize 2 2 1 5).buffer = sampleU8Matrix.buffer ∧
      (sampleU8Matrix.resize 2 2 1 5).data = sampleU8Matrix.data ∧
      (sampleU8Matrix.resize 2 2 1 5).cols = 2 ∧
      (sampleU8Matrix.resize 2 2 1 5).rows = 2 ∧
      (sampleU8Matrix.resize 2 2 1 5).channels = 1) ∧
    (10 * 10 * 1 * elemSize sampleU8Matrix.type ≤
        (sampleU8Matrix.resize 10 10 1 5).buffer.buffer.byteLength ∧
      (sampleU8Matrix.resize 10 10 1 5).buffer.buffer.id = 5 ∧
      (5 ≠ sampleU8Matrix.buffer.buffer.id →
        (sampleU8Matrix.resize 10 10 1 5).buffer ≠ sampleU8Matrix.buffer)) := by
  constructor
  · exact (c1_resize_reallocation_policy sampleU8Matrix 2 2 1 5).1 (by decide)
  · exact (c1_resize_reallocation_policy sampleU8Matrix 10 10 1 5).2 (by decide)

/-- C6 counterexample: the constructor performs no size check on a
caller-supplied buffer, so a 4 by 4 one-channel U8 matrix (needing 16
bytes) bound over an 8-byte Data violates the size invariant right after
construction. -/
theorem c6_counterexample :
    ¬ (Matrix.make 4 4 0x0101 (some (Data.new 8 0)) 0).sizeInvariant := by
  decide

/-- C6 amended: for matrices whose element type is recognized, the size
invariant does hold after construction without a caller-supplied
buffer, after every allocate, and after every resize (from any prior
state); only construction over a caller-supplied existing buffer can
violate it, since that path performs no size check. -/
theorem c6_invariant_alloc_resize :
    (∀ c r t fresh, (getDataTypeSize (getDataType t)).isSome = true →
      (Matrix.make c r t none fresh).sizeInvariant) ∧
    (∀ (m : Matrix) fresh, (getDataTypeSize m.type).isSome = true →
      (m.allocate fresh).sizeInvariant) ∧
    (∀ (m : Matrix) c r ch fresh, (getDataTypeSize m.type).isSome = true →
      (m.resize c r ch fresh).sizeInvariant) := by
  have halloc : ∀ (m : Matrix) fresh, (m.allocate fresh).sizeInvariant := by
    intro m fresh
    simp only [Matrix.allocate, Matrix.sizeInvariant, Data.new]
    exact le_align8 _
  refine ⟨fun c r t fresh _ => ?_, fun m fresh _ => halloc m fresh,
    fun m c r ch fresh _ => ?_⟩
  · exact halloc _ fresh
  · by_cases hc : c * r * ch * elemSize m.type > m.buffer.size
    · simp only [Matrix.resize, hc, if_true]
      exact halloc _ fresh
    · simp only [Matrix.resize, hc, if_false, Matrix.sizeInvariant]
      omega

/-- C6 witness: the invariant after a fresh construction and after a
resize of the sample matrix, with the recognized-type hypotheses
discharged on the U8 code. -/
theorem c6_invariant_alloc_resize_witness :
    (Matrix.make 3 5 0x0101 none 7).sizeInvariant ∧
    (sampleU8Matrix.resize 9 9 1 3).sizeInvariant :=
  ⟨c6_invariant_alloc_resize.1 3 5 0x0101 7 (by decide),
   c6_invariant_alloc_resize.2.2 sampleU8Matrix 9 9 1 3 (by decide)⟩

/-- C7: for every width, height, format code, source pixel sequence and
initial destination contents, the unrolled four-pixels-per-iteration
loop plus the one-pixel remainder loop produce exactly the byte store of
the one-pixel-at-a-time reference loop that proceeds left to right
within each row and top to bottom over rows. -/
theorem c7_unrolled_equals_reference (src : Nat → Nat) (w h code : Nat)
    (d : Nat → Nat) :
    ImageProcessing.grayscale src w h code d = refGrayscale src w h code d :=
  grayscale_eq_refGrayscale src w h code d

/-- The 8 by 2 RGBA test image of the spec: every pixel is
(200, 100, 50, 255). -/
def src8x2 : Nat → Nat := fun i =>
  match i % 4 with
  | 0 => 200
  | 1 => 100
  | 2 => 50
  | _ => 255

/-- C3 counterexample: on the solid (200, 100, 50, 255) 8 by 2 RGBA
image, the first destination byte is not 69 (it is 124: the luminance
0.299*200 + 0.587*100 + 0.114*50 is 124.2, not the 69.5 the spec
computed). -/
theorem c3_counterexample :
    ImageProcessing.grayscale src8x2 8 2 ColorConversion.RGBA2GRAY (fun _ => 0) 0 ≠ 69 := by
  simp only [grayscale_eq_refGrayscale]
  set_option maxRecDepth 100000 in decide

/-- C3 amended: grayscale conversion of the solid (200, 100, 50, 255)
8 by 2 RGBA image writes 124 — the truncation of the float64 luminance
0.299*200 + 0.587*100 + 0.114*50 = 124.2 — into every one of the 16
destination bytes. -/
theorem c3_gray_value_is_124 :
    ∀ k : Fin 16,
      ImageProcessing.grayscale src8x2 8 2 ColorConversion.RGBA2GRAY (fun _ => 0) k.val = 124 := by
  simp only [grayscale_eq_refGrayscale]
  set_option maxRecDepth 1000000 in decide

/-- C5 counterexample: the unrecognized ColorConversion code 7 decodes
to exactly the RGBA parameters (silent default, no error), and a Matrix
constructed with the unrecognized DataType 0x2000 silently gets no
typed view and a zero-byte buffer instead of failing. -/
theorem c5_counterexample :
    decodeGray 7 = decodeGray ColorConversion.RGBA2GRAY ∧
    (Matrix.make 2 2 0x2002 none 0).data = none ∧
    (Matrix.make 2 2 0x2002 none 0).buffer.size = 0 := by
  refine ⟨by decide, by decide, by decide⟩

/-- C5 amended: unrecognized codes are not rejected.  Every
ColorConversion code outside the three non-RGBA cases (in particular
every unrecognized code) selects the RGBA parameters, and constructing a
Matrix whose DataType is outside the recognized table silently yields no
typed view and a zero-byte buffer (the element size is undefined, so the
byte count degenerates), with no error raised anywhere. -/
theorem c5_unrecognized_codes_default (code t : Nat) :
    (code ≠ ColorConversion.RGB2GRAY → code ≠ ColorConversion.BGRA2GRAY →
      code ≠ ColorConversion.BGR2GRAY →
      decodeGray code = decodeGray ColorConversion.RGBA2GRAY) ∧
    (getDataTypeSize (getDataType t) = none →
      ∀ c r fresh,
        (Matrix.make c r t none fresh).data = none ∧
        (Matrix.make c r t none fresh).buffer.size = 0) := by
  constructor
  · intro h1 h2 h3
    have hswap : ¬ (code = ColorConversion.BGRA2GRAY ∨ code = ColorConversion.BGR2GRAY) := by
      simp [h2, h3]
    have hthree : ¬ (code = ColorConversion.RGB2GRAY ∨ code = ColorConversion.BGR2GRAY) := by
      simp [h1, h3]
    have n1 : code ≠ 1 := h1
    have n2 : code ≠ 2 := h2
    have n3 : code ≠ 3 := h3
    simp only [decodeGray, ColorConversion.RGBA2GRAY, ColorConversion.BGRA2GRAY,
      ColorConversion.RGB2GRAY, ColorConversion.BGR2GRAY]
    simp [n1, n2, n3]
  · intro hnone c r fresh
    have h1 : getDataType t ≠ DataType.U8 := by
      intro e; rw [e] at hnone; simp [getDataTypeSize] at hnone
    have h2 : getDataType t ≠ DataType.S32 := by
      intro e; rw [e] at hnone; simp [getDataTypeSize, DataType.S32, DataType.U8] at hnone
    have h3 : getDataType t ≠ DataType.F32 := by
      intro e; rw [e] at hnone; simp [getDataTypeSize, DataType.F32, DataType.U8, DataType.S32] at hnone
    have h4 : getDataType t ≠ DataType.S64 := by
      intro e; rw [e] at hnone
      simp [getDataTypeSize, DataType.S64, DataType.U8, DataType.S32, DataType.F32] at hnone
    have h5 : getDataType t ≠ DataType.F64 := by
      intro e; rw [e] at hnone
      simp [getDataTypeSize, DataType.F64, DataType.U8, DataType.S32, DataType.F32,
        DataType.S64] at hnone
    have hes : elemSize (getDataType t) = 0 := by
      simp [elemSize, hnone]
    constructor
    · simp [Matrix.make, Matrix.allocate, Matrix.selectTypedView, h1, h2, h3, h4, h5]
    · simp [Matrix.make, Matrix.allocate, hes, Data.new, align8]

/-- C5 witness: the amended statement applied to the unrecognized
format code 9 and the unrecognized combined code 0x2003. -/
theorem c5_unrecognized_codes_default_witness :
    decodeGray 9 = decodeGray ColorConversion.RGBA2GRAY ∧
    (Matrix.make 5 1 0x2003 none 2).data = none ∧
    (Matrix.make 5 1 0x2003 none 2).buffer.size = 0 :=
  ⟨(c5_unrecognized_codes_default 9 0x2003).1 (by decide) (by decide) (by decide),
   ((c5_unrecognized_codes_default 9 0x2003).2 (by decide) 5 1 2).1,
   ((c5_unrecognized_codes_default 9 0x2003).2 (by decide) 5 1 2).2⟩

/-- C4: get_buffer fails (with the exhaustion error, mutating nothing —
the throw precedes every assignment) exactly when head is null; on
success it returns the head node's id, advances head to that node's
next link, leaves tail alone, and hands back a node whose recorded size
(and buffer capacity, whenever the recorded size is honest) is at least
the requested byte count — replacing the node's buffer by a strictly
larger fresh one only when the request exceeds the node's current size,
and leaving every other node untouched. -/
theorem c4_get_buffer_contract (st : PoolState) (s : Nat) :
    (st.head = none → Cache.get_buffer st s = .error cacheExhaustedMsg) ∧
    (∀ hd, st.head = some hd →
      ∃ st', Cache.get_buffer st s = .ok (st', hd) ∧
        st'.head = (st.nodes hd).next ∧
        st'.tail = st.tail ∧
        s ≤ (st'.nodes hd).size ∧
        ((st.nodes hd).size = (st.nodes hd).data.size → s ≤ (st'.nodes hd).data.size) ∧
        (s ≤ (st.nodes hd).size → st' = { st with head := (st.nodes hd).next }) ∧
        ((st.nodes hd).size < s →
          (st'.nodes hd).size = align8 s ∧
          (st.nodes hd).size < (st'.nodes hd).size ∧
          (st'.nodes hd).data = Data.new s st.fresh ∧
          ∀ k, k ≠ hd → st'.nodes k = st.nodes k)) := by
  constructor
  · intro hh
    unfold Cache.get_buffer
    rw [hh]
  · intro hd hh
    have hstep : Cache.get_buffer st s =
        (if s > (st.nodes hd).size then
          .ok ({ st with
                  head := (st.nodes hd).next
                  nodes := updNode st.nodes hd ((st.nodes hd).resize s st.fresh)
                  fresh := st.fresh + 1 }, hd)
         else .ok ({ st with head := (st.nodes hd).next }, hd)) := by
      unfold Cache.get_buffer
      rw [hh]
    by_cases hs : s > (st.nodes hd).size
    · rw [hstep]
      simp only [hs, if_true]
      have hupd : updNode st.nodes hd ((st.nodes hd).resize s st.fresh) hd =
          (st.nodes hd).resize s st.fresh := by
        simp [updNode]
      refine ⟨_, rfl, rfl, rfl, ?_, ?_, ?_, ?_⟩
      · dsimp only
        rw [hupd]
        simp only [PNode.resize, Data.new]
        exact le_align8 s
      · intro _
        dsimp only
        rw [hupd]
        simp only [PNode.resize, Data.new]
        exact le_align8 s
      · intro hle; omega
      · intro _
        refine ⟨?_, ?_, ?_, ?_⟩
        · dsimp only
          rw [hupd]
          simp only [PNode.resize, Data.new]
        · dsimp only
          rw [hupd]
          simp only [PNode.resize, Data.new]
          have := le_align8 s
          omega
        · dsimp only
          rw [hupd]
          simp only [PNode.resize]
        · intro k hk
          dsimp only
          simp [updNode, hk]
    · rw [hstep]
      simp only [hs, if_false]
      refine ⟨_, rfl, rfl, rfl, ?_, ?_, fun _ => rfl, ?_⟩
      · dsimp only
        omega
      · intro heq
        dsimp only
        omega
      · exact fun h => h.elim

/-- A pool with two 16-byte nodes (ids 0 and 1), built by allocate(1, 10)
on a fresh Cache; head is node 0, tail is node 1. -/
def samplePool : PoolState := Cache.allocate emptyPool 1 10

/-- C4 witness: get_buffer on the never-allocated pool fails with the
exhaustion error; on the two-node sample pool a 20-byte request succeeds
with all the contract conclusions (the 16-byte head node gets resized). -/
theorem c4_get_buffer_contract_witness :
    Cache.get_buffer emptyPool 20 = .error cacheExhaustedMsg ∧
    (∃ st', Cache.get_buffer samplePool 20 = .ok (st', 0) ∧
      st'.head = (samplePool.nodes 0).next ∧
      st'.tail = samplePool.tail ∧
      20 ≤ (st'.nodes 0).size ∧
      ((samplePool.nodes 0).size = (samplePool.nodes 0).data.size →
        20 ≤ (st'.nodes 0).data.size) ∧
      (20 ≤ (samplePool.nodes 0).size →
        st' = { samplePool with head := (samplePool.nodes 0).next }) ∧
      ((samplePool.nodes 0).size < 20 →
        (st'.nodes 0).size = align8 20 ∧
        (samplePool.nodes 0).size < (st'.nodes 0).size ∧
        (st'.nodes 0).data = Data.new 20 samplePool.fresh ∧
        ∀ k, k ≠ 0 → st'.nodes k = samplePool.nodes k)) :=
  ⟨(c4_get_buffer_contract emptyPool 20).1 rfl,
   (c4_get_buffer_contract samplePool 20).2 0 rfl⟩

/-- C2: the code loses the round-trip property.  On the reachable
single-free-node pool allocate(0, 16), borrowing the node and
immediately returning it leaves head null — put_buffer links the node
behind the stale tail and never restores head — so the next get_buffer
fails with the exhaustion error even though the node was returned.  The
second conjunct shows put_buffer itself succeeded and left head null. -/
theorem c2_round_trip_lost :
    ((Cache.get_buffer (Cache.allocate emptyPool 0 16) 16).bind fun r =>
        (Cache.put_buffer r.1 r.2).bind fun st2 =>
          Cache.get_buffer st2 16) = .error cacheExhaustedMsg ∧
    ((Cache.get_buffer (Cache.allocate emptyPool 0 16) 16).bind fun r =>
        (Cache.put_buffer r.1 r.2).map fun st2 => st2.head) = .ok none :=
  ⟨rfl, rfl⟩

end Flam
